import Mathlib

/-!
Verification of the jojq interception-proxy core: a shallow embedding of the
capture pipeline, capture buffer, plain-HTTP handler, HTTPS MITM handler and
certificate manager, translated from the JavaScript sources
(`ProxyServer` and `CertificateManager`), together with theorems settling the
spec claims C1-C10.

External Node built-ins (`JSON.parse`, `zlib`, `forge` RSA generation,
`Date.now`) are modelled abstractly: a JS string is represented by the two
observations this code makes of it (its `.length` and its `JSON.parse`
outcome), decompression by a `decodedBody` oracle field, and key generation /
clocks by explicit supply fields in the manager state.
-/

namespace Jojq

/-- Character-list prefix test: is the first list a prefix of the second?
Building block for the JS `String.prototype.includes` model. -/
def leadMatch : List Char → List Char → Bool
  | [], _ => true
  | _ :: _, [] => false
  | p :: ps, c :: cs => (p == c) && leadMatch ps cs

/-- Character-list substring search: does `pat` occur contiguously in `s`? -/
def charSearch (pat : List Char) : List Char → Bool
  | [] => leadMatch pat []
  | c :: cs => leadMatch pat (c :: cs) || charSearch pat cs

/-- Model of JS `s.includes(pat)` as used by the content-type sniffing in
`handleHttpRequest` and `handleHttpsMITM`. -/
def strContains (s pat : String) : Bool := charSearch pat.toList s.toList

/-- Parsed JSON documents: the result of a successful `JSON.parse`. -/
inductive JsonVal where
  | null
  | bool (b : Bool)
  | num (n : Int)
  | str (s : String)
  | arr (elems : List JsonVal)
  | obj (fields : List (String × JsonVal))

/-- Abstraction of a JS body string as observed by the proxy code: the code
only ever inspects `.length` and the outcome of `JSON.parse` on it
(`JSON.parse` is a Node built-in, external to this repository, so its result
is carried as data). JS fact used where needed: `JSON.parse('')` throws, i.e.
a length-0 string has `parse = none`. -/
structure JsStr where
  length : Nat
  parse : Option JsonVal

/-- The `request.body` field of a capture record: `requestData` in the source
is the parsed request body when it is valid JSON, the raw string when present
but not JSON, and `null` when the accumulated request body is empty. -/
inductive ReqBody where
  | parsed (v : JsonVal)
  | raw (s : JsStr)
  | null

/-- The `request` part of a capture record. -/
structure CapturedRequest where
  url : String
  method : String
  headers : List (String × String)
  body : ReqBody

/-- The `response` part of a capture record. -/
structure CapturedResponse where
  statusCode : Nat
  headers : List (String × String)
  body : JsonVal

/-- One entry of `this.capturedResponses`. -/
structure CaptureRecord where
  request : CapturedRequest
  response : CapturedResponse
  timestamp : String

/-- The inbound client request as seen by a handler after its `end` event:
url, method, headers and the accumulated `requestBody` string. -/
structure ClientRequest where
  url : String
  method : String
  headers : List (String × String)
  body : JsStr

/-- The upstream response as seen by a handler. `contentType` and
`contentEncoding` are `headers['content-type'] or ''` and
`headers['content-encoding'] or ''`. `rawBody` is the on-the-wire body;
`decodedBody` is the result of piping `rawBody` through the matching zlib
decompressor (zlib is external, so the decoded stream is carried as data;
for identity encoding the two coincide in reality). -/
structure UpstreamResponse where
  statusCode : Nat
  headers : List (String × String)
  contentType : String
  contentEncoding : String
  rawBody : JsStr
  decodedBody : JsStr

/-- One megabyte, the unit of the source's `responseBody.length / (1024 * 1024)`. -/
def MB : Nat := 1024 * 1024

/-- The capture size cap in bytes: 25 MB. -/
def sizeCapBytes : Nat := 25 * MB

/-- The source's size gate `responseBody.length / (1024 * 1024) > 25`.
The JS division is floating point, but dividing by the power of two 2^20 is
exact for any realizable string length, so the comparison is exactly
`length > 25 * 2^20`. -/
def tooLarge (len : Nat) : Bool := len > sizeCapBytes

/-- Content-type gate of `handleHttpRequest` (part_002 line 718):
`contentType.includes('application/json') || contentType.includes('text/json')`. -/
def httpCaptureCheck (ct : String) : Bool :=
  strContains ct "application/json" || strContains ct "text/json"

/-- Content-type gate `shouldCapture` of `handleHttpsMITM` (lines 883-885),
which additionally accepts any media type containing `json`. -/
def mitmCaptureCheck (ct : String) : Bool :=
  strContains ct "application/json" || strContains ct "text/json" || strContains ct "json"

/-- The `requestData` computation shared by both handlers (lines 732-739 and
925-932): `null` when the accumulated request body is falsy (empty), else the
parsed JSON, else the raw string. -/
def parseRequestData (b : JsStr) : ReqBody :=
  if b.length == 0 then ReqBody.null
  else
    match b.parse with
    | some v => ReqBody.parsed v
    | none => ReqBody.raw b

/-- Construction of the `capturedResponse` object literal (lines 741-754 and
934-947), given the final request URL, the parsed response body and the
timestamp. -/
def mkRecord (u : String) (req : ClientRequest) (resp : UpstreamResponse) (v : JsonVal)
    (ts : String) : CaptureRecord :=
  { request := { url := u, method := req.method, headers := req.headers,
                 body := parseRequestData req.body },
    response := { statusCode := resp.statusCode, headers := resp.headers, body := v },
    timestamp := ts }

/-- Capture decision of the plain HTTP handler's response-`end` callback
(lines 715-775): content-type gate on the two literals, then the 25 MB gate on
the raw accumulated body, then `JSON.parse` of the raw body. The plain
handler applies no content decoding. -/
def httpCaptureStep (req : ClientRequest) (resp : UpstreamResponse) (ts : String) :
    Option CaptureRecord :=
  if httpCaptureCheck resp.contentType then
    if tooLarge resp.rawBody.length then none
    else
      match resp.rawBody.parse with
      | some v => some (mkRecord req.url req resp v ts)
      | none => none
  else none

/-- The stream the MITM handler collects (lines 890-909): the zlib-decoded
body for `gzip`/`deflate`/`br`, the raw body otherwise. -/
def mitmBodyStream (resp : UpstreamResponse) : JsStr :=
  if resp.contentEncoding == "gzip" || resp.contentEncoding == "deflate"
      || resp.contentEncoding == "br" then
    resp.decodedBody
  else resp.rawBody

/-- Capture decision of the MITM handler's response path (lines 882-968):
the wider content-type gate, then the 25 MB gate on the decoded body, then
`JSON.parse` of the decoded body; URL is `https://hostname + path`. -/
def mitmCaptureStep (hostname : String) (req : ClientRequest) (resp : UpstreamResponse)
    (ts : String) : Option CaptureRecord :=
  if mitmCaptureCheck resp.contentType then
    if tooLarge (mitmBodyStream resp).length then none
    else
      match (mitmBodyStream resp).parse with
      | some v => some (mkRecord ("https://" ++ hostname ++ req.url) req resp v ts)
      | none => none
  else none

/-- The buffer mutation of both handlers (lines 756-761 and 949-953):
`push`, then `shift` once when the length exceeds `maxCapturedResponses`. -/
def bufferAppend (buf : List CaptureRecord) (maxLen : Nat) (r : CaptureRecord) :
    List CaptureRecord :=
  let buf2 := buf ++ [r]
  if buf2.length > maxLen then buf2.tail else buf2

/-- Append step plus the ordinal the operator is shown: the source reports
`this.capturedResponses.length` after the push/shift (lines 766 and 959) as
the response number; `none` when no record was produced. -/
def recordAppendStep (buf : List CaptureRecord) (maxLen : Nat) :
    Option CaptureRecord → List CaptureRecord × Option Nat
  | some r =>
    let buf2 := bufferAppend buf maxLen r
    (buf2, some buf2.length)
  | none => (buf, none)

/-- Full buffer effect of the plain handler's response `end`. -/
def httpResponseEnd (buf : List CaptureRecord) (maxLen : Nat) (req : ClientRequest)
    (resp : UpstreamResponse) (ts : String) : List CaptureRecord × Option Nat :=
  recordAppendStep buf maxLen (httpCaptureStep req resp ts)

/-- Full buffer effect of the MITM handler's response `end`. -/
def mitmResponseEnd (hostname : String) (buf : List CaptureRecord) (maxLen : Nat)
    (req : ClientRequest) (resp : UpstreamResponse) (ts : String) :
    List CaptureRecord × Option Nat :=
  recordAppendStep buf maxLen (mitmCaptureStep hostname req resp ts)

/-- What the client connection receives: either the piped original (still
encoded) upstream bytes, or a literal text body written with `end`. -/
inductive ClientBody where
  | piped (raw : JsStr)
  | text (s : String)

/-- The response written back to the client socket. -/
structure ClientResponse where
  statusCode : Nat
  headers : List (String × String)
  body : ClientBody

/-- Forwarding path of both handlers: `clientRes.writeHead(proxyRes.statusCode,
proxyRes.headers); proxyRes.pipe(clientRes)` (lines 779-780 and 977-978),
independent of the capture branch. -/
def forwardToClient (resp : UpstreamResponse) : ClientResponse :=
  { statusCode := resp.statusCode, headers := resp.headers,
    body := ClientBody.piped resp.rawBody }

/-- The handlers' upstream-error reply (lines 785-786 and 983-984):
`writeHead(502, Content-Type text/plain)` and `end('Bad Gateway')`. -/
def badGateway : ClientResponse :=
  { statusCode := 502, headers := [("Content-Type", "text/plain")],
    body := ClientBody.text "Bad Gateway" }

/-- Outcome of the upstream exchange: a response, or a connect/read error
(the `proxyReq.on('error')` path). -/
inductive UpstreamOutcome where
  | ok (resp : UpstreamResponse)
  | err

/-- One full exchange of `handleHttpRequest`: what the client receives, the
new buffer, and the reported ordinal if a capture happened. -/
def handleHttpRequestModel (buf : List CaptureRecord) (maxLen : Nat) (req : ClientRequest)
    (outcome : UpstreamOutcome) (ts : String) :
    ClientResponse × List CaptureRecord × Option Nat :=
  match outcome with
  | .ok resp =>
    let step := httpResponseEnd buf maxLen req resp ts
    (forwardToClient resp, step.1, step.2)
  | .err => (badGateway, buf, none)

/-- One full inner exchange of `handleHttpsMITM`. -/
def mitmHandleRequest (hostname : String) (buf : List CaptureRecord) (maxLen : Nat)
    (req : ClientRequest) (outcome : UpstreamOutcome) (ts : String) :
    ClientResponse × List CaptureRecord × Option Nat :=
  match outcome with
  | .ok resp =>
    let step := mitmResponseEnd hostname buf maxLen req resp ts
    (forwardToClient resp, step.1, step.2)
  | .err => (badGateway, buf, none)

/-- Sequence of ordinals reported over a run of captured appends. -/
def ordinalRun (maxLen : Nat) : List CaptureRecord → List CaptureRecord → List Nat
  | _, [] => []
  | buf, r :: rest =>
    let buf2 := bufferAppend buf maxLen r
    buf2.length :: ordinalRun maxLen buf2 rest

/-- Translation of `ProxyServer.getResponse` (lines 1010-1015): a 1-based
read with JS-number index modelled as `Int`; the method only reads
`this.capturedResponses`, so the state component is returned unchanged. -/
def getResponseModel (st : List CaptureRecord) (index : Int) :
    Option CaptureRecord × List CaptureRecord :=
  if index < 1 ∨ index > (st.length : Int) then (none, st)
  else (st.get? (index - 1).toNat, st)

/-- One printed summary line of `listResponses`. -/
structure RespSummary where
  shownIndex : Nat
  method : String
  url : String
  statusCode : Nat

/-- Translation of `ProxyServer.listResponses` (lines 1017-1030; the
interactive variant at 163-175 prints the same fields plus a size): the list
of summaries printed, and the buffer, which the method only reads. -/
def listResponsesModel (st : List CaptureRecord) :
    List RespSummary × List CaptureRecord :=
  (st.enum.map (fun p =>
    { shownIndex := p.1 + 1, method := p.2.request.method,
      url := p.2.request.url, statusCode := p.2.response.statusCode }), st)

/-- A calendar date abstracted to what `generateCertForHost` manipulates: the
year (read and written by `getFullYear`/`setFullYear`) and the rest of the
date within that year, which `setFullYear` leaves untouched. -/
structure JDate where
  year : Nat
  sub : Nat

/-- The `keyUsage` extension flags set on a leaf certificate. -/
structure KeyUsage where
  keyCertSign : Bool
  digitalSignature : Bool
  nonRepudiation : Bool
  keyEncipherment : Bool
  dataEncipherment : Bool

/-- The `extKeyUsage` extension flags (flags absent from the source's object
literal are false). -/
structure ExtKeyUsage where
  serverAuth : Bool
  clientAuth : Bool
  codeSigning : Bool
  emailProtection : Bool
  timeStamping : Bool

/-- One `subjectAltName` entry; `type = 2` is a DNS name. -/
structure AltName where
  type : Nat
  value : String

/-- An X.509 leaf certificate as assembled by `generateCertForHost`
(part_001 lines 168-206). Key pairs produced by the external forge RNG are
identified by the `Nat` handed out by the state's supply. -/
structure LeafCert where
  publicKey : Nat
  serialNumber : Nat
  notBefore : JDate
  notAfter : JDate
  subject : List (String × String)
  issuer : List (String × String)
  basicConstraintsCA : Bool
  keyUsage : KeyUsage
  extKeyUsage : ExtKeyUsage
  subjectAltName : List AltName

/-- The `{key, cert}` result cached per hostname; `key` is the PEM of the
generated private key, identified by its key-pair id. -/
structure HostCert where
  key : Nat
  cert : LeafCert

/-- Lookup in the hostname-keyed cache, the model of `Map.get`/`Map.has`. -/
def mapLookup {α : Type} : List (String × α) → String → Option α
  | [], _ => none
  | (k, v) :: rest, key => if k = key then some v else mapLookup rest key

/-- State of the `CertificateManager` after `loadOrGenerateCA`:
the CA certificate's subject attributes, the leaf cache, and supplies
standing in for the external RNG (`forge.pki.rsa.generateKeyPair`) and
clocks (`Date.now()`, `new Date()`). -/
structure CMState where
  caSubject : List (String × String)
  cache : List (String × HostCert)
  nextKeyPair : Nat
  nowMs : Nat
  nowDate : JDate

/-- The `extKeyUsage` object literal of the leaf: serverAuth and clientAuth
only (part_001 lines 195-197). -/
def leafExtKeyUsage : ExtKeyUsage :=
  { serverAuth := true, clientAuth := true, codeSigning := false,
    emailProtection := false, timeStamping := false }

/-- Translation of `CertificateManager.generateCertForHost` (part_001 lines
162-217): return the cached entry when present; otherwise mint a fresh key
pair and certificate with issuer = CA subject, validity now to now + 1 year,
`basicConstraints.cA = false`, `subjectAltName = DNS:hostname`, insert into
the cache and return. -/
def generateCertForHost (st : CMState) (hostname : String) : HostCert × CMState :=
  match mapLookup st.cache hostname with
  | some cached => (cached, st)
  | none =>
    let keys := st.nextKeyPair
    let cert : LeafCert :=
      { publicKey := keys
        serialNumber := st.nowMs
        notBefore := st.nowDate
        notAfter := { year := st.nowDate.year + 1, sub := st.nowDate.sub }
        subject := [("commonName", hostname)]
        issuer := st.caSubject
        basicConstraintsCA := false
        keyUsage := { keyCertSign := false, digitalSignature := true,
                      nonRepudiation := false, keyEncipherment := true,
                      dataEncipherment := true }
        extKeyUsage := leafExtKeyUsage
        subjectAltName := [{ type := 2, value := hostname }] }
    let result : HostCert := { key := keys, cert := cert }
    (result,
     { st with cache := st.cache ++ [(hostname, result)],
               nextKeyPair := st.nextKeyPair + 1 })

/-- Cache well-formedness: every cached entry for hostname `h` carries exactly
the DNS alt-name `h`. Holds for every state reachable from the empty cache. -/
def sanWF (st : CMState) : Prop :=
  ∀ h r, mapLookup st.cache h = some r →
    r.cert.subjectAltName = [{ type := 2, value := h }]

/-! Helper lemmas about the substring search, the buffer, and the cache. -/

theorem charSearch_of_leadMatch (b s : List Char) (h : leadMatch b s = true) :
    charSearch b s = true := by
  cases s with
  | nil => simpa [charSearch] using h
  | cons c cs => simp [charSearch, h]

theorem charSearch_drop (a b : List Char) :
    ∀ s, leadMatch (a ++ b) s = true → charSearch b s = true := by
  induction a with
  | nil => intro s h; exact charSearch_of_leadMatch b s h
  | cons x xs ih =>
    intro s h
    cases s with
    | nil => simp [leadMatch] at h
    | cons c cs =>
      simp only [List.cons_append, leadMatch, Bool.and_eq_true] at h
      have h2 := ih cs h.2
      simp [charSearch, h2]

theorem charSearch_mono (a b : List Char) :
    ∀ s, charSearch (a ++ b) s = true → charSearch b s = true := by
  intro s
  induction s with
  | nil =>
    intro h
    cases a with
    | nil => simpa using h
    | cons x xs => simp [charSearch, leadMatch] at h
  | cons c cs ih =>
    intro h
    simp only [charSearch, Bool.or_eq_true] at h
    rcases h with h | h
    · exact charSearch_drop a b (c :: cs) h
    · simp [charSearch, ih h]

theorem strContains_json_of_appjson (s : String)
    (h : strContains s "application/json" = true) : strContains s "json" = true := by
  have e : "application/json".toList = "application/".toList ++ "json".toList := by decide
  unfold strContains at h ⊢
  rw [e] at h
  exact charSearch_mono _ _ _ h

theorem strContains_json_of_textjson (s : String)
    (h : strContains s "text/json" = true) : strContains s "json" = true := by
  have e : "text/json".toList = "text/".toList ++ "json".toList := by decide
  unfold strContains at h ⊢
  rw [e] at h
  exact charSearch_mono _ _ _ h

theorem httpCheck_contains_json (ct : String) (h : httpCaptureCheck ct = true) :
    strContains ct "json" = true := by
  unfold httpCaptureCheck at h
  simp only [Bool.or_eq_true] at h
  rcases h with h | h
  · exact strContains_json_of_appjson ct h
  · exact strContains_json_of_textjson ct h

theorem mitmCheck_contains_json (ct : String) (h : mitmCaptureCheck ct = true) :
    strContains ct "json" = true := by
  unfold mitmCaptureCheck at h
  simp only [Bool.or_eq_true] at h
  rcases h with (h | h) | h
  · exact strContains_json_of_appjson ct h
  · exact strContains_json_of_textjson ct h
  · exact h

theorem bufferAppend_length (buf : List CaptureRecord) (maxLen : Nat) (r : CaptureRecord)
    (h : buf.length ≤ maxLen) :
    (bufferAppend buf maxLen r).length = min (buf.length + 1) maxLen := by
  unfold bufferAppend
  by_cases hc : (buf ++ [r]).length > maxLen
  · rw [if_pos hc, List.length_tail]
    simp only [List.length_append, List.length_singleton] at hc ⊢
    omega
  · rw [if_neg hc]
    simp only [List.length_append, List.length_singleton] at hc ⊢
    omega

theorem mapLookup_append {α : Type} (xs ys : List (String × α)) (k : String) :
    mapLookup (xs ++ ys) k =
      match mapLookup xs k with
      | some v => some v
      | none => mapLookup ys k := by
  induction xs with
  | nil => simp [mapLookup]
  | cons p rest ih =>
    obtain ⟨k', v'⟩ := p
    by_cases hk : k' = k
    · simp [mapLookup, hk]
    · simp only [List.cons_append, mapLookup, if_neg hk]
      exact ih

theorem mapLookup_append_self {α : Type} (xs : List (String × α)) (k : String) (v : α)
    (h : mapLookup xs k = none) : mapLookup (xs ++ [(k, v)]) k = some v := by
  rw [mapLookup_append, h]
  simp [mapLookup]

theorem generateCertForHost_cached (st : CMState) (h : String) (r : HostCert)
    (hc : mapLookup st.cache h = some r) : generateCertForHost st h = (r, st) := by
  unfold generateCertForHost
  rw [hc]

theorem generateCertForHost_lookup (st : CMState) (h : String) :
    mapLookup (generateCertForHost st h).2.cache h = some (generateCertForHost st h).1 := by
  unfold generateCertForHost
  cases hc : mapLookup st.cache h with
  | some r => simpa using hc
  | none =>
    simp only []
    exact mapLookup_append_self _ _ _ hc

theorem generateCertForHost_san (st : CMState) (hwf : sanWF st) (h : String) :
    (generateCertForHost st h).1.cert.subjectAltName = [{ type := 2, value := h }] := by
  unfold generateCertForHost
  cases hc : mapLookup st.cache h with
  | some r => simpa using hwf h r hc
  | none => simp

theorem generateCertForHost_sanWF (st : CMState) (hwf : sanWF st) (h : String) :
    sanWF (generateCertForHost st h).2 := by
  unfold generateCertForHost
  cases hc : mapLookup st.cache h with
  | some r => simpa using hwf
  | none =>
    simp only []
    intro h2 r2 hl
    simp only [mapLookup_append] at hl
    cases hcc : mapLookup st.cache h2 with
    | some r3 =>
      rw [hcc] at hl
      injection hl with hh
      exact hh ▸ hwf h2 r3 hcc
    | none =>
      rw [hcc] at hl
      simp only [mapLookup] at hl
      by_cases he : h = h2
      · rw [if_pos he] at hl
        injection hl with hh
        subst he
        rw [← hh]
      · rw [if_neg he] at hl
        simp at hl

theorem ordinalRun_spec (maxLen : Nat) :
    ∀ (rs buf : List CaptureRecord), buf.length ≤ maxLen →
      ordinalRun maxLen buf rs =
        (List.range rs.length).map (fun i => min (buf.length + i + 1) maxLen) := by
  intro rs
  induction rs with
  | nil => intro buf _; simp [ordinalRun]
  | cons r rest ih =>
    intro buf h
    have hlen := bufferAppend_length buf maxLen r h
    have h2 : (bufferAppend buf maxLen r).length ≤ maxLen := by omega
    rw [ordinalRun, ih (bufferAppend buf maxLen r) h2, hlen]
    rw [List.length_cons, List.range_succ_eq_map]
    simp only [List.map_cons, List.map_map]
    have htail :
        List.map (fun i => ((buf.length + 1) ⊓ maxLen + i + 1) ⊓ maxLen) (List.range rest.length) =
        List.map ((fun i => (buf.length + i + 1) ⊓ maxLen) ∘ Nat.succ) (List.range rest.length) := by
      apply List.map_congr_left
      intro i _
      simp only [Function.comp_apply, Nat.min_def]
      split_ifs <;> omega
    rw [htail]

/-! Concrete fixtures used by witnesses and counterexamples. -/

/-- A minimal capture record. -/
def rec0 : CaptureRecord :=
  { request := { url := "http://u.test/", method := "GET", headers := [], body := ReqBody.null },
    response := { statusCode := 200, headers := [], body := JsonVal.null },
    timestamp := "t0" }

/-- A client request with no request body. -/
def reqJ : ClientRequest :=
  { url := "http://u.test/data", method := "GET", headers := [],
    body := { length := 0, parse := none } }

/-- The parsed value of a small JSON object body. -/
def valJ : JsonVal := JsonVal.obj [("x", JsonVal.num 1)]

/-- A small identity-encoded JSON upstream response. -/
def respJ : UpstreamResponse :=
  { statusCode := 200, headers := [("content-type", "application/json")],
    contentType := "application/json", contentEncoding := "",
    rawBody := { length := 7, parse := some valJ },
    decodedBody := { length := 7, parse := some valJ } }

/-- The record respJ produces through the plain HTTP handler. -/
def recJ : CaptureRecord := mkRecord reqJ.url reqJ respJ valJ "t1"

/-- A small identity-encoded JSON response whose media type contains `json`
without being one of the two literals the plain handler tests. -/
def respHal : UpstreamResponse :=
  { statusCode := 200, headers := [("content-type", "application/hal+json")],
    contentType := "application/hal+json", contentEncoding := "",
    rawBody := { length := 7, parse := some valJ },
    decodedBody := { length := 7, parse := some valJ } }

/-- A JSON body of exactly 25 MB. -/
def bigBody : JsStr := { length := sizeCapBytes, parse := some JsonVal.null }

/-- A JSON body of 25 MB plus one byte. -/
def bigBody1 : JsStr := { length := sizeCapBytes + 1, parse := some JsonVal.null }

/-- A JSON response of exactly 25 MB. -/
def respBig : UpstreamResponse :=
  { statusCode := 200, headers := [("content-type", "application/json")],
    contentType := "application/json", contentEncoding := "",
    rawBody := bigBody, decodedBody := bigBody }

/-- A JSON response of 25 MB plus one byte. -/
def respBig1 : UpstreamResponse :=
  { statusCode := 200, headers := [("content-type", "application/json")],
    contentType := "application/json", contentEncoding := "",
    rawBody := bigBody1, decodedBody := bigBody1 }

/-- A certificate-manager state with an empty leaf cache. -/
def st0 : CMState :=
  { caSubject := [("commonName", "jojq Root CA"), ("countryName", "US")],
    cache := [], nextKeyPair := 0, nowMs := 1760000000000,
    nowDate := { year := 2026, sub := 284 } }

/-- The ordinal sequence produced by 101 captures against the default
maximum of 100. -/
def c5run : List Nat := ordinalRun 100 [] (List.replicate 101 rec0)

/-! The claims. -/

/-- Claim C1: for every upstream response, in both the plain HTTP handler and
the HTTPS MITM handler, a capture record is produced only when the
content-type contains `json`, the body the handler collects (the zlib-decoded
stream in the MITM handler, the raw accumulated body in the plain handler,
which performs no decoding) is at most 25 MB, and that body parses as JSON —
in which case the record's `response.body` is exactly the parsed JSON value;
a response failing any condition produces no record and leaves the buffer
unchanged. -/
theorem jojq_C1 (hostname : String) (req : ClientRequest) (resp : UpstreamResponse)
    (ts : String) (r : CaptureRecord) (buf : List CaptureRecord) (maxLen : Nat) :
    (httpCaptureStep req resp ts = some r →
       strContains resp.contentType "json" = true ∧
       resp.rawBody.length ≤ sizeCapBytes ∧
       resp.rawBody.parse = some r.response.body) ∧
    (mitmCaptureStep hostname req resp ts = some r →
       strContains resp.contentType "json" = true ∧
       (mitmBodyStream resp).length ≤ sizeCapBytes ∧
       (mitmBodyStream resp).parse = some r.response.body) ∧
    (httpCaptureStep req resp ts = none →
       httpResponseEnd buf maxLen req resp ts = (buf, none)) ∧
    (mitmCaptureStep hostname req resp ts = none →
       mitmResponseEnd hostname buf maxLen req resp ts = (buf, none)) := by
  refine ⟨?_, ?_, ?_, ?_⟩
  · intro h
    unfold httpCaptureStep at h
    by_cases hct : httpCaptureCheck resp.contentType = true
    · rw [if_pos hct] at h
      by_cases hsz : tooLarge resp.rawBody.length = true
      · rw [if_pos hsz] at h; exact absurd h (by simp)
      · rw [if_neg hsz] at h
        cases hp : resp.rawBody.parse with
        | none => rw [hp] at h; exact absurd h (by simp)
        | some v =>
          rw [hp] at h
          injection h with hr
          refine ⟨httpCheck_contains_json _ hct, ?_, ?_⟩
          · unfold tooLarge at hsz
            simp only [decide_eq_true_eq, not_lt] at hsz
            simpa using hsz
          · rw [← hr]; rfl
    · rw [if_neg hct] at h; exact absurd h (by simp)
  · intro h
    unfold mitmCaptureStep at h
    by_cases hct : mitmCaptureCheck resp.contentType = true
    · rw [if_pos hct] at h
      by_cases hsz : tooLarge (mitmBodyStream resp).length = true
      · rw [if_pos hsz] at h; exact absurd h (by simp)
      · rw [if_neg hsz] at h
        cases hp : (mitmBodyStream resp).parse with
        | none => rw [hp] at h; exact absurd h (by simp)
        | some v =>
          rw [hp] at h
          injection h with hr
          refine ⟨mitmCheck_contains_json _ hct, ?_, ?_⟩
          · unfold tooLarge at hsz
            simp only [decide_eq_true_eq, not_lt] at hsz
            simpa using hsz
          · rw [← hr]; rfl
    · rw [if_neg hct] at h; exact absurd h (by simp)
  · intro h
    unfold httpResponseEnd
    rw [h]
    rfl
  · intro h
    unfold mitmResponseEnd
    rw [h]
    rfl

/-- Witness for C1: the small JSON response respJ is captured by the plain
handler and the three conditions hold of it. -/
theorem jojq_C1_witness :
    strContains respJ.contentType "json" = true ∧
    respJ.rawBody.length ≤ sizeCapBytes ∧
    respJ.rawBody.parse = some recJ.response.body :=
  (jojq_C1 "h.test" reqJ respJ "t1" recJ [] 100).1 rfl

/-- Claim C2: under the buffer invariant (length at most the configured
maximum, which is at least 1), every append leaves the length at most the
maximum; an append within capacity keeps every record, and an append at
capacity drops exactly the head while retaining the appended record at the
tail with the survivors in insertion order. -/
theorem jojq_C2 (buf : List CaptureRecord) (maxLen : Nat) (r : CaptureRecord)
    (hlen : buf.length ≤ maxLen) (hmax : 1 ≤ maxLen) :
    (bufferAppend buf maxLen r).length ≤ maxLen ∧
    (buf.length < maxLen → bufferAppend buf maxLen r = buf ++ [r]) ∧
    (buf.length = maxLen → bufferAppend buf maxLen r = buf.tail ++ [r]) := by
  refine ⟨?_, ?_, ?_⟩
  · rw [bufferAppend_length buf maxLen r hlen]
    omega
  · intro hlt
    unfold bufferAppend
    rw [if_neg]
    simp only [List.length_append, List.length_singleton, not_lt]
    omega
  · intro heq
    unfold bufferAppend
    have hc : (buf ++ [r]).length > maxLen := by
      simp only [List.length_append, List.length_singleton]
      omega
    rw [if_pos hc]
    cases buf with
    | nil => exfalso; simp at heq; omega
    | cons x xs => simp

/-- Witness for C2 at a concrete buffer of length 1 against the default
maximum 100. -/
theorem jojq_C2_witness :
    (bufferAppend [rec0] 100 rec0).length ≤ 100 ∧
    (([rec0] : List CaptureRecord).length < 100 → bufferAppend [rec0] 100 rec0 = [rec0] ++ [rec0]) ∧
    (([rec0] : List CaptureRecord).length = 100 → bufferAppend [rec0] 100 rec0 = [rec0].tail ++ [rec0]) :=
  jojq_C2 [rec0] 100 rec0 (by simp) (by omega)

/-- Counterexample to C3: `respHal` is a plain-HTTP response whose media type
`application/hal+json` contains `json`, is identity-encoded, is far below the
25 MB cap and parses as JSON, yet the plain HTTP handler produces no capture
record for it — its gate tests only the two literals `application/json` and
`text/json`. -/
theorem jojq_C3_counterexample :
    strContains respHal.contentType "json" = true ∧
    respHal.contentEncoding = "" ∧
    respHal.rawBody = respHal.decodedBody ∧
    respHal.decodedBody.length ≤ sizeCapBytes ∧
    respHal.decodedBody.parse = some valJ ∧
    httpCaptureStep reqJ respHal "t1" = none :=
  ⟨rfl, rfl, rfl, by decide, rfl, rfl⟩

/-- Claim C3 as amended: the plain HTTP handler captures exactly when the
content-type contains `application/json` or `text/json` (not any media type
containing `json`), the raw accumulated body is at most 25 MB, and the raw
body parses as JSON; it performs no content decoding — its outcome is
independent of the `Content-Encoding` header and of the decoded stream. -/
theorem jojq_C3_amended (req : ClientRequest) (resp : UpstreamResponse) (ts : String)
    (e : String) (d : JsStr) :
    ((httpCaptureStep req resp ts).isSome =
       (httpCaptureCheck resp.contentType && !tooLarge resp.rawBody.length
         && (resp.rawBody.parse).isSome)) ∧
    httpCaptureStep req { resp with contentEncoding := e, decodedBody := d } ts =
      httpCaptureStep req resp ts := by
  constructor
  · unfold httpCaptureStep
    by_cases h1 : httpCaptureCheck resp.contentType = true
    · rw [if_pos h1, h1]
      by_cases h2 : tooLarge resp.rawBody.length = true
      · rw [if_pos h2, h2]
        rfl
      · rw [if_neg h2, Bool.not_eq_true] at *
        rw [h2]
        cases resp.rawBody.parse <;> rfl
    · rw [if_neg h1, Bool.not_eq_true] at *
      rw [h1]
      rfl
  · rfl

/-- Claim C4: in both handlers, a JSON-typed response whose (collected) body
parses as JSON is captured when the body is exactly 25 MB = 25 * 1024 * 1024
and not captured at 25 MB + 1; the response forwarded to the client is the
unchanged upstream response in either case (forwarding is independent of the
capture branch). -/
theorem jojq_C4 (hostname : String) (req : ClientRequest) (resp : UpstreamResponse)
    (ts : String) (buf : List CaptureRecord) (maxLen : Nat) :
    (httpCaptureCheck resp.contentType = true → (resp.rawBody.parse).isSome = true →
       ((resp.rawBody.length = 25 * 1024 * 1024 →
           (httpCaptureStep req resp ts).isSome = true) ∧
        (resp.rawBody.length = 25 * 1024 * 1024 + 1 →
           httpCaptureStep req resp ts = none))) ∧
    (mitmCaptureCheck resp.contentType = true → ((mitmBodyStream resp).parse).isSome = true →
       (((mitmBodyStream resp).length = 25 * 1024 * 1024 →
           (mitmCaptureStep hostname req resp ts).isSome = true) ∧
        ((mitmBodyStream resp).length = 25 * 1024 * 1024 + 1 →
           mitmCaptureStep hostname req resp ts = none))) ∧
    (handleHttpRequestModel buf maxLen req (UpstreamOutcome.ok resp) ts).1 =
      forwardToClient resp ∧
    (mitmHandleRequest hostname buf maxLen req (UpstreamOutcome.ok resp) ts).1 =
      forwardToClient resp := by
  refine ⟨?_, ?_, rfl, rfl⟩
  · intro hct hp
    constructor
    · intro hlen
      unfold httpCaptureStep
      rw [if_pos hct]
      have hsz : tooLarge resp.rawBody.length = false := by
        unfold tooLarge sizeCapBytes MB
        rw [hlen]
        decide
      rw [hsz]
      simp only [Bool.false_eq_true, if_false]
      cases hpp : resp.rawBody.parse with
      | none => rw [hpp] at hp; exact absurd hp (by simp)
      | some v => rfl
    · intro hlen
      unfold httpCaptureStep
      rw [if_pos hct]
      have hsz : tooLarge resp.rawBody.length = true := by
        unfold tooLarge sizeCapBytes MB
        rw [hlen]
        decide
      rw [hsz]
      rfl
  · intro hct hp
    constructor
    · intro hlen
      unfold mitmCaptureStep
      rw [if_pos hct]
      have hsz : tooLarge (mitmBodyStream resp).length = false := by
        unfold tooLarge sizeCapBytes MB
        rw [hlen]
        decide
      rw [hsz]
      simp only [Bool.false_eq_true, if_false]
      cases hpp : (mitmBodyStream resp).parse with
      | none => rw [hpp] at hp; exact absurd hp (by simp)
      | some v => rfl
    · intro hlen
      unfold mitmCaptureStep
      rw [if_pos hct]
      have hsz : tooLarge (mitmBodyStream resp).length = true := by
        unfold tooLarge sizeCapBytes MB
        rw [hlen]
        decide
      rw [hsz]
      rfl

/-- Witness for C4: a 25 MB JSON body is captured, a 25 MB + 1 body is not. -/
theorem jojq_C4_witness :
    (httpCaptureStep reqJ respBig "t2").isSome = true ∧
    httpCaptureStep reqJ respBig1 "t2" = none :=
  ⟨((jojq_C4 "h.test" reqJ respBig "t2" [] 100).1 rfl rfl).1 rfl,
   ((jojq_C4 "h.test" reqJ respBig1 "t2" [] 100).1 rfl rfl).2 rfl⟩

set_option maxRecDepth 100000 in
/-- Counterexample to C5: the ordinal reported to the operator is
`capturedResponses.length` after the push/evict, so over 101 captured
appends against the default maximum of 100 the reported sequence is not
strictly increasing — the 100th and 101st ordinals are both 100. -/
theorem jojq_C5_counterexample : ¬ List.Chain' (· < ·) c5run := by
  rw [List.chain'_iff_get]
  intro h
  have hlen : c5run.length = 101 := by decide
  have hi : 99 < c5run.length - 1 := by omega
  have hlt := h 99 hi
  have e1 : c5run.get? 99 = some 100 := by decide
  have e2 : c5run.get? 100 = some 100 := by decide
  have g1 := List.get?_eq_get (l := c5run) (n := 99) (by omega)
  have g2 := List.get?_eq_get (l := c5run) (n := 100) (by omega)
  rw [e1] at g1
  rw [e2] at g2
  injection g1 with g1x
  injection g2 with g2x
  rw [← g1x, ← g2x] at hlt
  exact absurd hlt (by omega)

/-- Claim C5 as amended: the ordinal assigned by an append equals the buffer
length after the append; starting from an empty buffer the k-th capture
(`k = i + 1` below) receives ordinal `min k maxLen` — strictly increasing
only until the buffer reaches the configured maximum and constant at the
maximum thereafter. -/
theorem jojq_C5_amended (maxLen : Nat) (rs : List CaptureRecord) :
    ordinalRun maxLen [] rs =
      (List.range rs.length).map (fun i => min (i + 1) maxLen) := by
  have h := ordinalRun_spec maxLen rs [] (by simp)
  simpa using h

/-- Claim C6: on an upstream connect/read error, the plain HTTP handler
replies status 502 with header `Content-Type: text/plain` and body
`Bad Gateway`, and the capture buffer is left unchanged with no ordinal
assigned. -/
theorem jojq_C6 (buf : List CaptureRecord) (maxLen : Nat) (req : ClientRequest)
    (ts : String) :
    handleHttpRequestModel buf maxLen req UpstreamOutcome.err ts = (badGateway, buf, none) ∧
    badGateway.statusCode = 502 ∧
    badGateway.headers = [("Content-Type", "text/plain")] ∧
    badGateway.body = ClientBody.text "Bad Gateway" :=
  ⟨rfl, rfl, rfl, rfl⟩

/-- Claim C7: in every record either handler captures, `request.body` is the
`requestData` computation applied to the original request body; and that
computation yields the parsed JSON value when the body parses, the raw string
when the body is nonempty but does not parse, and null when the body is empty
(absent) — using the JS fact that `JSON.parse` of the empty string throws. -/
theorem jojq_C7 (hostname : String) (req : ClientRequest) (resp : UpstreamResponse)
    (ts : String) (r : CaptureRecord) (b : JsStr)
    (hwf : b.length = 0 → b.parse = none) :
    (httpCaptureStep req resp ts = some r →
       r.request.body = parseRequestData req.body) ∧
    (mitmCaptureStep hostname req resp ts = some r →
       r.request.body = parseRequestData req.body) ∧
    (∀ v, b.parse = some v → parseRequestData b = ReqBody.parsed v) ∧
    (b.length ≠ 0 → b.parse = none → parseRequestData b = ReqBody.raw b) ∧
    (b.length = 0 → parseRequestData b = ReqBody.null) := by
  refine ⟨?_, ?_, ?_, ?_, ?_⟩
  · intro h
    unfold httpCaptureStep at h
    by_cases hct : httpCaptureCheck resp.contentType = true
    · rw [if_pos hct] at h
      by_cases hsz : tooLarge resp.rawBody.length = true
      · rw [if_pos hsz] at h; exact absurd h (by simp)
      · rw [if_neg hsz] at h
        cases hp : resp.rawBody.parse with
        | none => rw [hp] at h; exact absurd h (by simp)
        | some v =>
          rw [hp] at h
          injection h with hr
          rw [← hr]; rfl
    · rw [if_neg hct] at h; exact absurd h (by simp)
  · intro h
    unfold mitmCaptureStep at h
    by_cases hct : mitmCaptureCheck resp.contentType = true
    · rw [if_pos hct] at h
      by_cases hsz : tooLarge (mitmBodyStream resp).length = true
      · rw [if_pos hsz] at h; exact absurd h (by simp)
      · rw [if_neg hsz] at h
        cases hp : (mitmBodyStream resp).parse with
        | none => rw [hp] at h; exact absurd h (by simp)
        | some v =>
          rw [hp] at h
          injection h with hr
          rw [← hr]; rfl
    · rw [if_neg hct] at h; exact absurd h (by simp)
  · intro v hv
    unfold parseRequestData
    have hb : (b.length == 0) = false := by
      by_cases hz : b.length = 0
      · rw [hwf hz] at hv; exact absurd hv (by simp)
      · simpa using hz
    rw [hb]
    simp only [Bool.false_eq_true, if_false, hv]
  · intro hnz hnone
    unfold parseRequestData
    have hb : (b.length == 0) = false := by simpa using hnz
    rw [hb]
    simp only [Bool.false_eq_true, if_false, hnone]
  · intro hz
    unfold parseRequestData
    have hb : (b.length == 0) = true := by simpa using hz
    rw [hb]
    rfl

/-- Witness for C7: a nonempty body parsing as the number 1 yields
`requestData = parsed 1`. -/
theorem jojq_C7_witness :
    parseRequestData { length := 4, parse := some (JsonVal.num 1) } =
      ReqBody.parsed (JsonVal.num 1) :=
  (jojq_C7 "h.test" reqJ respJ "t1" recJ
      { length := 4, parse := some (JsonVal.num 1) }
      (fun h => absurd h (by decide))).2.2.1 (JsonVal.num 1) rfl

/-- Claim C8: a freshly minted leaf certificate (hostname not in the cache)
has issuer attributes equal to the CA subject attributes, is not itself a CA,
has extended key usage exactly serverAuth and clientAuth, subject alternative
name exactly the DNS entry for the hostname, notBefore = now, and
notAfter = now + 1 year. -/
theorem jojq_C8 (st : CMState) (h : String)
    (hfresh : mapLookup st.cache h = none) :
    (generateCertForHost st h).1.cert.issuer = st.caSubject ∧
    (generateCertForHost st h).1.cert.basicConstraintsCA = false ∧
    (generateCertForHost st h).1.cert.extKeyUsage =
      { serverAuth := true, clientAuth := true, codeSigning := false,
        emailProtection := false, timeStamping := false } ∧
    (generateCertForHost st h).1.cert.subjectAltName = [{ type := 2, value := h }] ∧
    (generateCertForHost st h).1.cert.notBefore = st.nowDate ∧
    (generateCertForHost st h).1.cert.notAfter =
      { year := st.nowDate.year + 1, sub := st.nowDate.sub } := by
  unfold generateCertForHost
  rw [hfresh]
  exact ⟨rfl, rfl, rfl, rfl, rfl, rfl⟩

/-- Witness for C8 at the empty-cache state st0 and hostname example.com. -/
theorem jojq_C8_witness :
    (generateCertForHost st0 "example.com").1.cert.basicConstraintsCA = false ∧
    (generateCertForHost st0 "example.com").1.cert.subjectAltName =
      [{ type := 2, value := "example.com" }] :=
  ⟨(jojq_C8 st0 "example.com" rfl).2.1, (jojq_C8 st0 "example.com" rfl).2.2.2.1⟩

/-- Claim C9: two calls to generateCertForHost with the same hostname return
the same cached pair (so the same public key) and leave the state unchanged
on the second call; and for distinct hostnames the returned certificates have
distinct subjectAltName DNS entries (given the cache well-formedness that
every reachable state enjoys). -/
theorem jojq_C9 (st : CMState) (h h1 h2 : String) (hwf : sanWF st) (hne : h1 ≠ h2) :
    ((generateCertForHost (generateCertForHost st h).2 h).1 = (generateCertForHost st h).1 ∧
     (generateCertForHost (generateCertForHost st h).2 h).2 = (generateCertForHost st h).2 ∧
     (generateCertForHost (generateCertForHost st h).2 h).1.cert.publicKey =
       (generateCertForHost st h).1.cert.publicKey) ∧
    (generateCertForHost st h1).1.cert.subjectAltName ≠
      (generateCertForHost (generateCertForHost st h1).2 h2).1.cert.subjectAltName := by
  constructor
  · have hl := generateCertForHost_lookup st h
    have e := generateCertForHost_cached (generateCertForHost st h).2 h
      (generateCertForHost st h).1 hl
    rw [e]
    exact ⟨rfl, rfl, rfl⟩
  · have s1 := generateCertForHost_san st hwf h1
    have hwf2 := generateCertForHost_sanWF st hwf h1
    have s2 := generateCertForHost_san (generateCertForHost st h1).2 hwf2 h2
    rw [s1, s2]
    intro heq
    apply hne
    simpa using heq

/-- Witness for C9: distinct hostnames a.test and b.test minted from the
empty-cache state st0 carry distinct DNS alt-names. -/
theorem jojq_C9_witness :
    (generateCertForHost st0 "a.test").1.cert.subjectAltName ≠
      (generateCertForHost (generateCertForHost st0 "a.test").2 "b.test").1.cert.subjectAltName :=
  (jojq_C9 st0 "x.test" "a.test" "b.test"
    (fun h r hl => absurd hl (by simp [st0, mapLookup])) (by decide)).2

/-- Claim C10: getResponse and listResponses leave the capture buffer
unchanged (they only read it); getResponse returns null for any integer
index below 1 or above the length, and the record at position index - 1
otherwise. -/
theorem jojq_C10 (st : List CaptureRecord) (index : Int) :
    (getResponseModel st index).2 = st ∧
    (listResponsesModel st).2 = st ∧
    ((index < 1 ∨ index > (st.length : Int)) → (getResponseModel st index).1 = none) ∧
    (1 ≤ index → index ≤ (st.length : Int) →
      (getResponseModel st index).1 = st.get? (index - 1).toNat) := by
  refine ⟨?_, rfl, ?_, ?_⟩
  · unfold getResponseModel
    split
    · rfl
    · rfl
  · intro hidx
    unfold getResponseModel
    rw [if_pos hidx]
  · intro h1 h2
    unfold getResponseModel
    rw [if_neg]
    simp only [not_or, not_lt]
    exact ⟨h1, h2⟩

/-- Witness for C10: an out-of-range negative index on a one-record buffer
returns null and leaves the buffer unchanged. -/
theorem jojq_C10_witness :
    (getResponseModel [rec0] (-5)).1 = none ∧ (getResponseModel [rec0] (-5)).2 = [rec0] :=
  ⟨(jojq_C10 [rec0] (-5)).2.2.1 (Or.inl (by decide)), (jojq_C10 [rec0] (-5)).1⟩

end Jojq
